import Mathlib

/-!
Verification development for the UAREvaluation browser-driven response-capture
pipeline (`src/brand-concierge/brandConciergeTester.js`, provided as
`src/unnamed/part_005`, and the orchestrator in `src/unnamed/part_004`, with
`src/config/config.js`).

Texts are modelled as `List Char`; the JavaScript string operations used by the
source (`trim`, `toLowerCase`, `includes`, `split('\n')`, regular-expression
word-boundary tests restricted to the ASCII fragment the source actually deals
with) are given explicit executable definitions, and the predicates, the
completion-detection polling loop, the layered response extraction, and the
batch scheduler are translated from the source.  Browser I/O (navigation,
typing, submission) is abstracted into behaviour parameters; this does not
affect the claims below, which concern the scheduling, detection, extraction
and persistence logic.
-/

namespace UAREval

/-- ASCII fragment of the JavaScript whitespace class used by `trim` and `\s`. -/
def jsIsWS (c : Char) : Bool :=
  c == ' ' || c == '\t' || c == '\n' || c == '\r' || c == '\x0b' || c == '\x0c'

/-- JavaScript `String.prototype.trim`: drop whitespace from both ends. -/
def jsTrim (s : List Char) : List Char :=
  ((s.dropWhile jsIsWS).reverse.dropWhile jsIsWS).reverse

/-- JavaScript `String.prototype.toLowerCase` on the ASCII fragment. -/
def jsToLower (s : List Char) : List Char :=
  s.map Char.toLower

/-- JavaScript `haystack.includes(needle)`. -/
def jsIncludes : List Char → List Char → Bool
  | [], needle => needle.isPrefixOf []
  | c :: rest, needle => needle.isPrefixOf (c :: rest) || jsIncludes rest needle

/-- JavaScript `String.prototype.split('\n')` (empty segments preserved). -/
def splitLines : List Char → List (List Char)
  | [] => [[]]
  | c :: rest =>
    if c == '\n' then
      [] :: splitLines rest
    else
      match splitLines rest with
      | [] => [[c]]
      | l :: ls => (c :: l) :: ls

/-- JavaScript regular-expression word character `\w` = `[A-Za-z0-9_]`. -/
def isWordChar (c : Char) : Bool :=
  c.isAlphanum || c == '_'

/-- A word boundary `\b` holds against an adjacent character that is absent or
not a word character (all keywords of the source start and end with letters). -/
def boundaryOk : Option Char → Bool
  | none => true
  | some c => !isWordChar c

/-- Last character of `pre`, or `prev` when `pre` is empty: the character to
the left of a candidate match site. -/
def lastOr (prev : Option Char) : List Char → Option Char
  | [] => prev
  | c :: rest => lastOr (some c) rest

/-- Does `kw` occur at the head of `t`, followed by a word boundary? -/
def kwHere (t kw : List Char) : Bool :=
  kw.isPrefixOf t && boundaryOk (t.drop kw.length).head?

/-- Scan `t` for a word-bounded occurrence of one of `kws`; `prev` is the
character immediately before `t` in the full text. -/
def kwScan (kws : List (List Char)) : List Char → Option Char → Bool
  | [], prev => boundaryOk prev && kws.any (fun kw => kwHere [] kw)
  | c :: rest, prev =>
    (boundaryOk prev && kws.any (fun kw => kwHere (c :: rest) kw)) ||
      kwScan kws rest (some c)

/-- JavaScript `/\b(kw1|kw2|...)\b/i.test(t)` for all-letter keywords `kws`
(given lower-case). -/
def wordRegexTest (kws : List (List Char)) (t : List Char) : Bool :=
  kwScan kws (jsToLower t) none

/-- The "in progress" phrases of `isGeneratingMessage` (part_005). -/
def generatingPhrases : List (List Char) :=
  [("generating response".toList), ("knowledge base".toList), ("please wait".toList),
   ("loading".toList), ("processing".toList), ("thinking".toList),
   ("one moment".toList), ("generating from our".toList), ("hold on".toList)]

/-- `isGeneratingMessage` (part_005): the lower-cased text contains one of the
known loading phrases. -/
def isGeneratingMessage (text : List Char) : Bool :=
  generatingPhrases.any (fun p => jsIncludes (jsToLower text) p)

/-- The UI-chrome phrases of `isUIText` (part_005). -/
def uiPhrases : List (List Char) :=
  [("tell us what you".toList), ("or create".toList), ("type your message".toList),
   ("send message".toList), ("clear conversation".toList), ("start new chat".toList)]

/-- Character class of the source regex `^[\d\s\-\+\*\.]+$`. -/
def punctClassChar (c : Char) : Bool :=
  c.isDigit || jsIsWS c || c == '-' || c == '+' || c == '*' || c == '.'

/-- The source regex `/^[\d\s\-\+\*\.]+$/.test(s)`: nonempty and all characters
in the digit/whitespace/punctuation class. -/
def isPunctDigitsOnly (s : List Char) : Bool :=
  !s.isEmpty && s.all punctClassChar

/-- `isUIText` (part_005): a known UI phrase occurs, or the trimmed text is
just numbers and symbols. -/
def isUIText (text : List Char) : Bool :=
  uiPhrases.any (fun p => jsIncludes (jsToLower text) p) ||
    isPunctDigitsOnly (jsTrim text)

/-- Keyword alternatives of the recommendation-language regex in
`isValidResponse` (part_005). -/
def validKeywords : List (List Char) :=
  [("recommend".toList), ("suggest".toList), ("perfect".toList), ("ideal".toList),
   ("great".toList), ("best".toList), ("try".toList), ("use".toList),
   ("consider".toList), ("adobe".toList)]

/-- `isValidResponse` (part_005): substantial length, not a loading message,
not UI text, and mentions recommendation language (the empty-string guard of
the source is subsumed by the length test). -/
def isValidResponse (text : List Char) : Bool :=
  let trimmed := jsTrim text
  if trimmed.length < 30 then false
  else if isGeneratingMessage trimmed then false
  else if isUIText trimmed then false
  else wordRegexTest validKeywords trimmed

/-- Adobe product names recognised by `containsAdobeRecommendation` (part_005). -/
def adobeProducts : List (List Char) :=
  [("photoshop".toList), ("illustrator".toList), ("premiere".toList),
   ("after effects".toList), ("lightroom".toList), ("indesign".toList),
   ("acrobat".toList), ("express".toList), ("substance".toList),
   ("dimension".toList), ("animate".toList), ("audition".toList),
   ("bridge".toList), ("character animator".toList), ("creative cloud".toList)]

/-- Keyword alternatives of the recommendation regex in
`containsAdobeRecommendation` (part_005). -/
def recVerbKeywords : List (List Char) :=
  [("recommend".toList), ("suggest".toList), ("perfect".toList), ("ideal".toList),
   ("great".toList), ("best".toList), ("try".toList), ("use".toList)]

/-- `containsAdobeRecommendation` (part_005): mentions Adobe, one of its
products, and recommendation language. -/
def containsAdobeRecommendation (text : List Char) : Bool :=
  let lower := jsToLower text
  jsIncludes lower ("adobe".toList) &&
    adobeProducts.any (fun p => jsIncludes lower p) &&
    wordRegexTest recVerbKeywords text

/-- A word-bounded occurrence of `kw` somewhere in the lower-cased `t`:
what the source regex `/\b(kw)\b/i` accepts. -/
def WordOccurrence (t kw : List Char) : Prop :=
  ∃ pre post, jsToLower t = pre ++ (kw ++ post) ∧
    boundaryOk (lastOr none pre) = true ∧ boundaryOk post.head? = true

theorem kwHere_iff (t kw : List Char) :
    kwHere t kw = true ↔ ∃ post, t = kw ++ post ∧ boundaryOk post.head? = true := by
  unfold kwHere
  rw [Bool.and_eq_true, List.isPrefixOf_iff_prefix]
  constructor
  · rintro ⟨⟨post, rfl⟩, hb⟩
    refine ⟨post, rfl, ?_⟩
    rwa [List.drop_left] at hb
  · rintro ⟨post, rfl, hb⟩
    exact ⟨⟨post, rfl⟩, by rwa [List.drop_left]⟩

theorem kwScan_iff (kws : List (List Char)) :
    ∀ (s : List Char) (prev : Option Char),
      kwScan kws s prev = true ↔
        ∃ kw ∈ kws, ∃ pre post, s = pre ++ (kw ++ post) ∧
          boundaryOk (lastOr prev pre) = true ∧ boundaryOk post.head? = true
  | [], prev => by
    rw [show kwScan kws [] prev = (boundaryOk prev && kws.any fun kw => kwHere [] kw)
        from rfl, Bool.and_eq_true, List.any_eq_true]
    constructor
    · rintro ⟨hprev, kw, hkw, hhere⟩
      obtain ⟨post, heq, hpb⟩ := (kwHere_iff _ _).mp hhere
      obtain ⟨rfl, rfl⟩ := List.append_eq_nil.mp heq.symm
      exact ⟨[], hkw, [], [], rfl, hprev, rfl⟩
    · rintro ⟨kw, hkw, pre, post, heq, hb1, hb2⟩
      obtain ⟨rfl, h2⟩ := List.append_eq_nil.mp heq.symm
      obtain ⟨rfl, rfl⟩ := List.append_eq_nil.mp h2
      exact ⟨hb1, [], hkw, by rw [kwHere_iff]; exact ⟨[], rfl, rfl⟩⟩
  | c :: rest, prev => by
    rw [show kwScan kws (c :: rest) prev =
          ((boundaryOk prev && kws.any fun kw => kwHere (c :: rest) kw) ||
            kwScan kws rest (some c)) from rfl,
        Bool.or_eq_true, Bool.and_eq_true, List.any_eq_true,
        kwScan_iff kws rest (some c)]
    constructor
    · rintro (⟨hprev, kw, hkw, hhere⟩ | ⟨kw, hkw, pre, post, heq, hb1, hb2⟩)
      · obtain ⟨post, heq, hpb⟩ := (kwHere_iff _ _).mp hhere
        exact ⟨kw, hkw, [], post, by simpa using heq, by simpa [lastOr] using hprev, hpb⟩
      · exact ⟨kw, hkw, c :: pre, post, by simp [heq], hb1, hb2⟩
    · rintro ⟨kw, hkw, pre, post, heq, hb1, hb2⟩
      cases pre with
      | nil =>
        left
        refine ⟨by simpa [lastOr] using hb1, kw, hkw, ?_⟩
        rw [kwHere_iff]
        exact ⟨post, by simpa using heq, hb2⟩
      | cons p ps =>
        right
        obtain ⟨rfl, heq2⟩ : p = c ∧ rest = ps ++ (kw ++ post) := by
          rw [List.cons_append] at heq
          exact ⟨(List.cons.injEq _ _ _ _ ▸ heq).1.symm, (List.cons.injEq _ _ _ _ ▸ heq).2⟩
        exact ⟨kw, hkw, ps, post, heq2, hb1, hb2⟩

theorem wordRegexTest_iff (kws : List (List Char)) (t : List Char) :
    wordRegexTest kws t = true ↔ ∃ kw ∈ kws, WordOccurrence t kw := by
  unfold wordRegexTest WordOccurrence
  exact kwScan_iff kws (jsToLower t) none

theorem mem_dropWhile_of_mem {p : Char → Bool} {c : Char} (hpc : p c = false) :
    ∀ {l : List Char}, c ∈ l → c ∈ l.dropWhile p
  | [], h => absurd h (List.not_mem_nil c)
  | x :: xs, h => by
    by_cases hx : p x = true
    · rw [List.dropWhile_cons, if_pos hx]
      rcases List.mem_cons.mp h with rfl | hmem
      · exact absurd hx (by simp [hpc])
      · exact mem_dropWhile_of_mem hpc hmem
    · rw [List.dropWhile_cons, if_neg hx]
      exact h

theorem mem_jsTrim_of_mem {c : Char} (hc : jsIsWS c = false) {l : List Char}
    (h : c ∈ l) : c ∈ jsTrim l := by
  unfold jsTrim
  rw [List.mem_reverse]
  exact mem_dropWhile_of_mem hc (List.mem_reverse.mpr (mem_dropWhile_of_mem hc h))

theorem punct_toNat_lt {c : Char} (h : punctClassChar c = true) : c.toNat < 65 := by
  unfold punctClassChar jsIsWS at h
  simp only [Bool.or_eq_true, beq_iff_eq] at h
  have h2 : c.isDigit = true ∨ c = ' ' ∨ c = '\t' ∨ c = '\n' ∨ c = '\r' ∨ c = '\x0b' ∨
      c = '\x0c' ∨ c = '-' ∨ c = '+' ∨ c = '*' ∨ c = '.' := by tauto
  rcases h2 with hd | rfl | rfl | rfl | rfl | rfl | rfl | rfl | rfl | rfl | rfl
  · simp [Char.isDigit] at hd
    have h3 := @UInt32.toNat_le_of_le c.val 57 (by norm_num) hd.2
    simp [Char.toNat]
    omega
  all_goals decide

theorem punct_toLower_eq {c : Char} (h : punctClassChar c = true) : c.toLower = c := by
  have := punct_toNat_lt h
  simp only [Char.toLower]
  rw [if_neg (by omega)]

/-- First character is a lower-case ASCII letter (true of every keyword list
in the source). -/
def headLowerAlpha : List Char → Bool
  | [] => false
  | c :: _ => c.isLower

theorem validKeywords_head : ∀ kw ∈ validKeywords, headLowerAlpha kw = true := by decide

theorem not_punct_of_toLower_alpha {c k : Char} (hck : c.toLower = k)
    (hk : 97 ≤ k.toNat) : punctClassChar c = false := by
  cases hp : punctClassChar c
  · rfl
  · have h1 : c.toNat < 65 := punct_toNat_lt hp
    have h2 : c = k := (punct_toLower_eq hp).symm.trans hck
    subst h2
    omega

theorem exists_nonpunct_of_occurrence {t kw : List Char} (hocc : WordOccurrence t kw)
    (hhead : headLowerAlpha kw = true) :
    ∃ c ∈ t, punctClassChar c = false := by
  obtain ⟨pre, post, heq, -, -⟩ := hocc
  cases kw with
  | nil => simp [headLowerAlpha] at hhead
  | cons k krest =>
    have hk : k ∈ jsToLower t := by
      rw [heq]
      simp
    obtain ⟨c, hc, hcl⟩ := List.mem_map.mp hk
    have h97 : 97 ≤ k.toNat := by
      simp only [headLowerAlpha, Char.isLower, Bool.and_eq_true, decide_eq_true_eq] at hhead
      exact @UInt32.le_toNat_of_le k.val 97 (by norm_num) hhead.1
    exact ⟨c, hc, not_punct_of_toLower_alpha hcl h97⟩

/-- The text (after trimming) is just digits, whitespace and the few symbols of
the source regex: the "pure punctuation/digits" reading of the claim. -/
def PunctDigitsProp (s : List Char) : Prop :=
  s ≠ [] ∧ ∀ c ∈ s, punctClassChar c = true

theorem not_punctProp_of_occurrence {t kw : List Char} (hocc : WordOccurrence t kw)
    (hhead : headLowerAlpha kw = true) : ¬ PunctDigitsProp t := by
  obtain ⟨c, hc, hcp⟩ := exists_nonpunct_of_occurrence hocc hhead
  rintro ⟨-, hall⟩
  rw [hall c hc] at hcp
  cases hcp

theorem isPunctDigitsOnly_trim_false_of_occurrence {t kw : List Char}
    (hocc : WordOccurrence t kw) (hhead : headLowerAlpha kw = true) :
    isPunctDigitsOnly (jsTrim t) = false := by
  obtain ⟨c, hc, hcp⟩ := exists_nonpunct_of_occurrence hocc hhead
  have hws : jsIsWS c = false := by
    cases hjs : jsIsWS c
    · rfl
    · exact absurd (by simp [punctClassChar, hjs] : punctClassChar c = true) (by simp [hcp])
  have hmem : c ∈ jsTrim t := mem_jsTrim_of_mem hws hc
  unfold isPunctDigitsOnly
  cases hall : (jsTrim t).all punctClassChar
  · simp
  · rw [List.all_eq_true] at hall
    rw [hall c hmem] at hcp
    cases hcp

/-- The valid-response predicate as the specification words it: trimmed length
at least 30, not a generating phrase, no UI-chrome phrase, not pure
punctuation/digits, and a word-bounded recommendation/brand keyword. -/
def ValidResponseSpec (text : List Char) : Prop :=
  30 ≤ (jsTrim text).length ∧
  isGeneratingMessage (jsTrim text) = false ∧
  (∀ p ∈ uiPhrases, jsIncludes (jsToLower (jsTrim text)) p = false) ∧
  ¬ PunctDigitsProp (jsTrim text) ∧
  ∃ kw ∈ validKeywords, WordOccurrence (jsTrim text) kw

/-- C5: `isValidResponse` returns true for a text exactly when its trimmed
length is at least 30, it is not a generating-phrase, not a known UI-chrome
phrase, not pure punctuation/digits, and contains a recommendation-language or
brand-keyword token. -/
theorem claim5_isValidResponse_iff (text : List Char) :
    isValidResponse text = true ↔ ValidResponseSpec text := by
  unfold isValidResponse ValidResponseSpec
  constructor
  · intro h
    by_cases h30 : (jsTrim text).length < 30
    · rw [if_pos h30] at h
      cases h
    rw [if_neg h30] at h
    by_cases hgen : isGeneratingMessage (jsTrim text) = true
    · rw [if_pos hgen] at h
      cases h
    rw [if_neg hgen] at h
    by_cases hui : isUIText (jsTrim text) = true
    · rw [if_pos hui] at h
      cases h
    rw [if_neg hui] at h
    obtain ⟨kw, hkw, hocc⟩ := (wordRegexTest_iff _ _).mp h
    have huif : (∀ p ∈ uiPhrases, jsIncludes (jsToLower (jsTrim text)) p = false) := by
      intro p hp
      cases hip : jsIncludes (jsToLower (jsTrim text)) p
      · rfl
      · exact absurd (by
          unfold isUIText
          rw [Bool.or_eq_true, List.any_eq_true]
          exact Or.inl ⟨p, hp, hip⟩) hui
    refine ⟨by omega, by simpa using hgen, huif,
      not_punctProp_of_occurrence hocc (validKeywords_head kw hkw), kw, hkw, hocc⟩
  · rintro ⟨h30, hgen, hui, -, kw, hkw, hocc⟩
    have huib : isUIText (jsTrim text) = false := by
      unfold isUIText
      rw [Bool.or_eq_false_iff]
      refine ⟨?_, isPunctDigitsOnly_trim_false_of_occurrence hocc (validKeywords_head kw hkw)⟩
      cases hany : uiPhrases.any fun p => jsIncludes (jsToLower (jsTrim text)) p
      · rfl
      · obtain ⟨p, hp, hip⟩ := List.any_eq_true.mp hany
        rw [hui p hp] at hip
        cases hip
    rw [if_neg (by omega), if_neg (by simp [hgen]), if_neg (by simp [huib])]
    exact (wordRegexTest_iff _ _).mpr ⟨kw, hkw, hocc⟩

theorem claim5_isValidResponse_iff_witness :
    ValidResponseSpec ("We recommend Adobe Photoshop for your photo editing needs".toList) :=
  (claim5_isValidResponse_iff
    ("We recommend Adobe Photoshop for your photo editing needs".toList)).mp (by decide)

/-! ### Completion detection (`captureResponse` / `captureResponseParallel`, part_005)

One poll of the loop samples the page: the body text, whether the chat input
element was found, and whether it is disabled.  A sample of `none` models a
poll whose page evaluation threw (the source catches it and keeps waiting). -/

structure PollSample where
  bodyText : List Char
  inputExists : Bool
  inputDisabled : Bool

/-- Page-level generating check of the polling loop (part_005). -/
def isStillGenerating (s : PollSample) : Bool :=
  jsIncludes (jsToLower s.bodyText) ("generating".toList) ||
  jsIncludes (jsToLower s.bodyText) ("knowledge base".toList) ||
  jsIncludes (jsToLower s.bodyText) ("please wait".toList)

/-- `element && !element.disabled` on the located chat input (part_005). -/
def isInputEnabled (s : PollSample) : Bool :=
  s.inputExists && !s.inputDisabled

/-- The line filter of the `hasSubstantialResponse` page evaluation (part_005). -/
def substantialLine (line : List Char) : Bool :=
  decide (30 < (jsTrim line).length) &&
  !jsIncludes (jsToLower (jsTrim line)) ("generating".toList) &&
  !jsIncludes (jsToLower (jsTrim line)) ("knowledge base".toList) &&
  !jsIncludes (jsToLower (jsTrim line)) ("tell us what".toList) &&
  !jsIncludes (jsToLower (jsTrim line)) ("or create".toList) &&
  (jsIncludes (jsToLower (jsTrim line)) ("adobe".toList) ||
   jsIncludes (jsToLower (jsTrim line)) ("recommend".toList) ||
   jsIncludes (jsToLower (jsTrim line)) ("suggest".toList) ||
   jsIncludes (jsToLower (jsTrim line)) ("perfect".toList) ||
   jsIncludes (jsToLower (jsTrim line)) ("ideal".toList))

/-- `hasSubstantialResponse` (part_005): some body line passes the filter. -/
def hasSubstantialResponse (s : PollSample) : Bool :=
  !((splitLines s.bodyText).filter substantialLine).isEmpty

/-- The ready decision taken on each poll (part_005):
`isInputEnabled && !isStillGenerating && hasSubstantialResponse`. -/
def pollReady (s : PollSample) : Bool :=
  isInputEnabled s && !isStillGenerating s && hasSubstantialResponse s

/-- `maxAttempts` of the polling loop (part_005). -/
def maxAttempts : Nat := 60

/-- The poll interval in milliseconds (part_005: `waitForTimeout(2000)`). -/
def pollIntervalMs : Nat := 2000

/-- The polling loop of `captureResponse` / `captureResponseParallel`: while not
ready and the attempt count is below the bound, wait one interval, sample the
page (a failed evaluation keeps waiting), and re-test the three signals.
Returns the ready flag together with the number of polls consumed. -/
def captureLoop (sample : Nat → Option PollSample) : Nat → Nat → Bool × Nat
  | 0, attemptCount => (false, attemptCount)
  | fuel + 1, attemptCount =>
    match sample (attemptCount + 1) with
    | none => captureLoop sample fuel (attemptCount + 1)
    | some st =>
      if pollReady st then (true, attemptCount + 1)
      else captureLoop sample fuel (attemptCount + 1)

/-- The completion-detection wait: run the polling loop from zero attempts with
`maxAttempts` polls of budget. -/
def awaitCompletion (sample : Nat → Option PollSample) : Bool × Nat :=
  captureLoop sample maxAttempts 0

theorem captureLoop_snd_le (sample : Nat → Option PollSample) :
    ∀ fuel a, (captureLoop sample fuel a).2 ≤ fuel + a
  | 0, a => by simp [captureLoop]
  | fuel + 1, a => by
    cases hs : sample (a + 1) with
    | none =>
      have ih := captureLoop_snd_le sample fuel (a + 1)
      simp only [captureLoop, hs]
      omega
    | some st =>
      by_cases h : pollReady st = true
      · simp only [captureLoop, hs, if_pos h]
        show a + 1 ≤ fuel + 1 + a
        omega
      · have ih := captureLoop_snd_le sample fuel (a + 1)
        simp only [captureLoop, hs, if_neg h]
        omega

theorem captureLoop_generating (sample : Nat → Option PollSample)
    (hgen : ∀ k st, sample k = some st → isStillGenerating st = true) :
    ∀ fuel a, captureLoop sample fuel a = (false, fuel + a)
  | 0, a => by simp [captureLoop]
  | fuel + 1, a => by
    cases hs : sample (a + 1) with
    | none =>
      have ih := captureLoop_generating sample hgen fuel (a + 1)
      simp only [captureLoop, hs, ih, Prod.mk.injEq]
      exact ⟨trivial, by omega⟩
    | some st =>
      have ih := captureLoop_generating sample hgen fuel (a + 1)
      have hnr : ¬ pollReady st = true := by
        simp [pollReady, hgen _ _ hs]
      simp only [captureLoop, hs, if_neg hnr, ih, Prod.mk.injEq]
      exact ⟨trivial, by omega⟩

theorem captureLoop_true (sample : Nat → Option PollSample) :
    ∀ fuel a k, captureLoop sample fuel a = (true, k) →
      ∃ st, sample k = some st ∧ pollReady st = true
  | 0, a, k => by
    intro h
    rw [captureLoop, Prod.mk.injEq] at h
    cases h.1
  | fuel + 1, a, k => by
    intro h
    cases hs : sample (a + 1) with
    | none =>
      rw [captureLoop, hs] at h
      exact captureLoop_true sample fuel (a + 1) k h
    | some st =>
      by_cases hr : pollReady st = true
      · simp only [captureLoop, hs, if_pos hr, Prod.mk.injEq] at h
        exact h.2 ▸ ⟨st, hs, hr⟩
      · simp only [captureLoop, hs, if_neg hr] at h
        exact captureLoop_true sample fuel (a + 1) k h

/-- C3: the completion-detection wait never throws (it is a total function of
the sampled page states, tolerating polls whose evaluation fails) and always
returns after at most `maxAttempts` polls of `pollIntervalMs` each
(60 × 2000 ms = 120 s); on a page that perpetually shows a generating phrase it
returns not-ready exactly at the deadline, so the caller proceeds to
best-effort extraction instead of blocking. -/
theorem claim3_bounded_wait :
    (∀ sample : Nat → Option PollSample,
      (awaitCompletion sample).2 ≤ maxAttempts ∧
      (awaitCompletion sample).2 * pollIntervalMs ≤ 120000) ∧
    (∀ sample : Nat → Option PollSample,
      (∀ k st, sample k = some st → isStillGenerating st = true) →
      awaitCompletion sample = (false, maxAttempts)) := by
  constructor
  · intro sample
    have h := captureLoop_snd_le sample maxAttempts 0
    unfold awaitCompletion
    constructor
    · simpa [maxAttempts] using h
    · have h2 : (captureLoop sample maxAttempts 0).2 ≤ 60 := by
        simpa [maxAttempts] using h
      calc (captureLoop sample maxAttempts 0).2 * pollIntervalMs
          ≤ 60 * pollIntervalMs := Nat.mul_le_mul_right _ h2
        _ ≤ 120000 := by norm_num [pollIntervalMs]
  · intro sample hgen
    unfold awaitCompletion
    rw [captureLoop_generating sample hgen maxAttempts 0, Nat.add_zero]

/-- A page that perpetually announces generation in progress. -/
def perpetualSample : Nat → Option PollSample :=
  fun _ => some { bodyText := ("Generating response, please wait".toList),
                  inputExists := true, inputDisabled := false }

theorem claim3_bounded_wait_witness :
    awaitCompletion perpetualSample = (false, maxAttempts) :=
  claim3_bounded_wait.2 perpetualSample (by
    intro k st h
    simp only [perpetualSample, Option.some.injEq] at h
    rw [← h]
    decide)

/-- The input-enabled signal as the specification words it. -/
def InputEnabledSignal (s : PollSample) : Prop :=
  s.inputExists = true ∧ s.inputDisabled = false

/-- The page-level generating signal as the specification words it: the page
text contains one of the generating phrases. -/
def GeneratingSignal (s : PollSample) : Prop :=
  jsIncludes (jsToLower s.bodyText) ("generating".toList) = true ∨
  jsIncludes (jsToLower s.bodyText) ("knowledge base".toList) = true ∨
  jsIncludes (jsToLower s.bodyText) ("please wait".toList) = true

/-- The substance signal as the specification words it: some visible line is
longer than 30 characters, is free of the generating/UI phrases, and contains
a recommendation or brand keyword. -/
def SubstanceSignal (s : PollSample) : Prop :=
  ∃ line ∈ splitLines s.bodyText,
    30 < (jsTrim line).length ∧
    jsIncludes (jsToLower (jsTrim line)) ("generating".toList) = false ∧
    jsIncludes (jsToLower (jsTrim line)) ("knowledge base".toList) = false ∧
    jsIncludes (jsToLower (jsTrim line)) ("tell us what".toList) = false ∧
    jsIncludes (jsToLower (jsTrim line)) ("or create".toList) = false ∧
    (jsIncludes (jsToLower (jsTrim line)) ("adobe".toList) = true ∨
     jsIncludes (jsToLower (jsTrim line)) ("recommend".toList) = true ∨
     jsIncludes (jsToLower (jsTrim line)) ("suggest".toList) = true ∨
     jsIncludes (jsToLower (jsTrim line)) ("perfect".toList) = true ∨
     jsIncludes (jsToLower (jsTrim line)) ("ideal".toList) = true)

theorem substantialLine_iff (line : List Char) :
    substantialLine line = true ↔
      30 < (jsTrim line).length ∧
      jsIncludes (jsToLower (jsTrim line)) ("generating".toList) = false ∧
      jsIncludes (jsToLower (jsTrim line)) ("knowledge base".toList) = false ∧
      jsIncludes (jsToLower (jsTrim line)) ("tell us what".toList) = false ∧
      jsIncludes (jsToLower (jsTrim line)) ("or create".toList) = false ∧
      (jsIncludes (jsToLower (jsTrim line)) ("adobe".toList) = true ∨
       jsIncludes (jsToLower (jsTrim line)) ("recommend".toList) = true ∨
       jsIncludes (jsToLower (jsTrim line)) ("suggest".toList) = true ∨
       jsIncludes (jsToLower (jsTrim line)) ("perfect".toList) = true ∨
       jsIncludes (jsToLower (jsTrim line)) ("ideal".toList) = true) := by
  unfold substantialLine
  simp only [Bool.and_eq_true, Bool.or_eq_true, Bool.not_eq_true',
    decide_eq_true_eq]
  tauto

theorem pollReady_iff (s : PollSample) :
    pollReady s = true ↔
      InputEnabledSignal s ∧ ¬ GeneratingSignal s ∧ SubstanceSignal s := by
  unfold pollReady InputEnabledSignal GeneratingSignal SubstanceSignal
    isInputEnabled isStillGenerating hasSubstantialResponse
  rw [Bool.and_eq_true, Bool.and_eq_true, Bool.and_eq_true,
    Bool.not_eq_true', Bool.not_eq_true',
    Bool.or_eq_false_iff, Bool.or_eq_false_iff]
  constructor
  · rintro ⟨⟨⟨hex, hdis⟩, hgen⟩, hsub⟩
    refine ⟨⟨hex, by simpa using hdis⟩, ?_, ?_⟩
    · rintro (h | h | h)
      · rw [hgen.1.1] at h
        cases h
      · rw [hgen.1.2] at h
        cases h
      · rw [hgen.2] at h
        cases h
    · rcases hfe : (splitLines s.bodyText).filter substantialLine with _ | ⟨l, ls⟩
      · rw [hfe] at hsub
        cases hsub
      · have hl : l ∈ (splitLines s.bodyText).filter substantialLine := by
          rw [hfe]
          exact List.mem_cons_self l ls
        obtain ⟨hmem, hsl⟩ := List.mem_filter.mp hl
        exact ⟨l, hmem, (substantialLine_iff l).mp hsl⟩
  · rintro ⟨⟨hex, hdis⟩, hgen, line, hmem, hline⟩
    have hfil : line ∈ (splitLines s.bodyText).filter substantialLine :=
      List.mem_filter.mpr ⟨hmem, (substantialLine_iff line).mpr hline⟩
    have hA : jsIncludes (jsToLower s.bodyText) ("generating".toList) = false := by
      cases h1 : jsIncludes (jsToLower s.bodyText) ("generating".toList)
      · rfl
      · exact absurd (Or.inl h1) hgen
    have hB : jsIncludes (jsToLower s.bodyText) ("knowledge base".toList) = false := by
      cases h1 : jsIncludes (jsToLower s.bodyText) ("knowledge base".toList)
      · rfl
      · exact absurd (Or.inr (Or.inl h1)) hgen
    have hC : jsIncludes (jsToLower s.bodyText) ("please wait".toList) = false := by
      cases h1 : jsIncludes (jsToLower s.bodyText) ("please wait".toList)
      · rfl
      · exact absurd (Or.inr (Or.inr h1)) hgen
    refine ⟨⟨⟨hex, by simp [hdis]⟩, ⟨hA, hB⟩, hC⟩, ?_⟩
    cases hie : ((splitLines s.bodyText).filter substantialLine).isEmpty
    · rfl
    · rw [List.isEmpty_iff] at hie
      rw [hie] at hfil
      cases hfil

/-- C4: on every poll the completion detector reports ready exactly when the
three signals hold simultaneously in that same sample (input enabled, no
generating phrase anywhere on the page, and a substantial line present); and
whenever the wait reports ready at poll `k`, the sample taken at poll `k`
satisfied all three signals. -/
theorem claim4_ready_iff_signals :
    (∀ s : PollSample, pollReady s = true ↔
      InputEnabledSignal s ∧ ¬ GeneratingSignal s ∧ SubstanceSignal s) ∧
    (∀ (sample : Nat → Option PollSample) (k : Nat),
      awaitCompletion sample = (true, k) →
      ∃ st, sample k = some st ∧
        InputEnabledSignal st ∧ ¬ GeneratingSignal st ∧ SubstanceSignal st) := by
  refine ⟨pollReady_iff, ?_⟩
  intro sample k h
  obtain ⟨st, hst, hr⟩ := captureLoop_true sample maxAttempts 0 k h
  exact ⟨st, hst, (pollReady_iff st).mp hr⟩

/-- A page showing a finished recommendation with the input re-enabled. -/
def readySample : PollSample :=
  { bodyText := ("We recommend Adobe Photoshop for all your photo editing needs".toList),
    inputExists := true, inputDisabled := false }

theorem claim4_ready_iff_signals_witness :
    ∃ st, (fun _ => some readySample) 1 = some st ∧
      InputEnabledSignal st ∧ ¬ GeneratingSignal st ∧ SubstanceSignal st :=
  claim4_ready_iff_signals.2 (fun _ => some readySample) 1 (by decide)

/-! ### Response extraction (`extractResponseTextParallel`, part_005)

A settled page is summarised by the texts matched by each response-container
selector (in DOM order, per selector) and the body text. -/

structure SettledPage where
  selectorTexts : List (List (List Char))
  bodyText : List Char

/-- Method 1 (part_005): for each response selector in order, scan its matched
elements from most recent to oldest and take the first valid text. -/
def firstValidFromSelectors : List (List (List Char)) → List Char
  | [] => []
  | elems :: rest =>
    match elems.reverse.find? isValidResponse with
    | some t => t
    | none => firstValidFromSelectors rest

/-- The `reduce` of Method 2 (part_005): keep the longest line, starting from
the empty string. -/
def longestLine (lines : List (List Char)) : List Char :=
  lines.foldl (fun longest current =>
    if longest.length < current.length then current else longest) []

/-- Method 2 (part_005): if nothing valid yet, keep the longest body line whose
trimmed text passes the valid-response predicate. -/
def method2Text (m1 : List Char) (lines : List (List Char)) : List Char :=
  if (jsTrim m1).isEmpty then
    let potential := lines.filter (fun line => isValidResponse (jsTrim line))
    if potential.isEmpty then m1 else longestLine potential
  else m1

/-- The line filter of Method 3 (part_005): long, an Adobe recommendation, and
not a generating message. -/
def adobeScanLine (line : List Char) : Bool :=
  decide (50 < (jsTrim line).length) &&
    containsAdobeRecommendation (jsTrim line) &&
    !isGeneratingMessage (jsTrim line)

/-- Method 3 (part_005): if still nothing, take the first Adobe-specific line. -/
def method3Text (m2 : List Char) (lines : List (List Char)) : List Char :=
  if (jsTrim m2).isEmpty then
    match lines.filter adobeScanLine with
    | [] => m2
    | a :: _ => a
  else m2

/-- The marked degraded string of the last-resort fallback (part_005). -/
def fallbackText (body : List Char) : List Char :=
  ("Response capture failed. Page content: ".toList) ++ body.take 200 ++ ("...".toList)

/-- Validation and fallback (part_005): replace an empty, too-short or
still-generating text by the marked fallback string. -/
def finalText (m3 : List Char) (body : List Char) : List Char :=
  if (jsTrim m3).isEmpty || decide (m3.length < 20) || isGeneratingMessage m3 then
    fallbackText body
  else m3

/-- `extractResponseTextParallel` (part_005): the three extraction methods in
order, then validation/fallback, then a final trim. -/
def extractResponseTextParallel (page : SettledPage) : List Char :=
  jsTrim (finalText
    (method3Text
      (method2Text (firstValidFromSelectors page.selectorTexts)
        (splitLines page.bodyText))
      (splitLines page.bodyText))
    page.bodyText)

theorem jsTrim_finalText_ne_nil (m3 body : List Char) :
    jsTrim (finalText m3 body) ≠ [] := by
  unfold finalText
  by_cases hc : ((jsTrim m3).isEmpty || decide (m3.length < 20) ||
      isGeneratingMessage m3) = true
  · rw [if_pos hc]
    have hR : ('R' : Char) ∈ fallbackText body := by
      unfold fallbackText
      exact List.mem_append.mpr (Or.inl (List.mem_append.mpr (Or.inl (by decide))))
    exact List.ne_nil_of_mem (mem_jsTrim_of_mem (by decide) hR)
  · rw [if_neg hc]
    intro hnil
    rw [Bool.or_eq_true, Bool.or_eq_true] at hc
    exact hc (Or.inl (Or.inl (by rw [hnil]; rfl)))

theorem firstValidFromSelectors_nil :
    ∀ sels : List (List (List Char)),
      (∀ sel ∈ sels, ∀ t ∈ sel, isValidResponse t = false) →
      firstValidFromSelectors sels = []
  | [], _ => rfl
  | elems :: rest, h => by
    rw [firstValidFromSelectors]
    have hfind : elems.reverse.find? isValidResponse = none := by
      rw [List.find?_eq_none]
      intro t ht
      rw [h elems (List.mem_cons_self elems rest) t (List.mem_reverse.mp ht)]
      simp
    rw [hfind]
    exact firstValidFromSelectors_nil rest
      (fun sel hs t ht => h sel (List.mem_cons_of_mem elems hs) t ht)

/-- C6 (amended): extraction never throws (it is a total function of the
settled page) and always returns a nonempty text; when no selector text and no
body line passes the valid-response predicate and no body line passes the
Adobe-specific long-line scan, the result is the marked degraded fallback
string built from a prefix of the raw page text. -/
theorem claim6_extraction_fallback (page : SettledPage) :
    extractResponseTextParallel page ≠ [] ∧
    ((∀ sel ∈ page.selectorTexts, ∀ t ∈ sel, isValidResponse t = false) →
     (∀ line ∈ splitLines page.bodyText, isValidResponse (jsTrim line) = false) →
     (∀ line ∈ splitLines page.bodyText, adobeScanLine line = false) →
     extractResponseTextParallel page = jsTrim (fallbackText page.bodyText)) := by
  constructor
  · exact jsTrim_finalText_ne_nil _ _
  · intro h1 h2 h3
    unfold extractResponseTextParallel
    rw [firstValidFromSelectors_nil page.selectorTexts h1]
    have hm2 : method2Text [] (splitLines page.bodyText) = [] := by
      unfold method2Text
      rw [if_pos (by rfl)]
      rw [List.filter_eq_nil_iff.mpr (fun line hl => by rw [h2 line hl]; simp)]
      rfl
    rw [hm2]
    have hm3 : method3Text [] (splitLines page.bodyText) = [] := by
      unfold method3Text
      rw [if_pos (by rfl)]
      rw [List.filter_eq_nil_iff.mpr (fun line hl => by rw [h3 line hl]; simp)]
    rw [hm3]
    unfold finalText
    rw [if_pos (by rfl)]

/-- A page with no selector matches and no passing line at all. -/
def emptyishPage : SettledPage :=
  { selectorTexts := [], bodyText := ("short".toList) }

theorem claim6_extraction_fallback_witness :
    extractResponseTextParallel emptyishPage ≠ [] ∧
    extractResponseTextParallel emptyishPage =
      jsTrim (fallbackText emptyishPage.bodyText) :=
  ⟨(claim6_extraction_fallback emptyishPage).1,
   (claim6_extraction_fallback emptyishPage).2 (by decide) (by decide) (by decide)⟩

/-- A body line that fails the valid-response predicate (it contains the UI
phrase "tell us what") yet passes the Adobe-specific Method-3 scan. -/
def uiAdobeLine : List Char :=
  "tell us what you need adobe photoshop is perfect for editing photos".toList

/-- The page refuting C6 as stated: no selector text and no line passes the
valid-response predicate, yet extraction returns the Method-3 line, not the
marked fallback string. -/
def uiAdobePage : SettledPage :=
  { selectorTexts := [], bodyText := uiAdobeLine }

/-- C6 counterexample: on `uiAdobePage` the claim's premise holds (no selector
text, no line passes the valid-response predicate) but extraction returns the
raw Method-3 line rather than a marked fallback string. -/
theorem claim6_counterexample :
    (uiAdobePage.selectorTexts = ([] : List (List (List Char))) ∧
      (splitLines uiAdobePage.bodyText).all
        (fun line => !isValidResponse (jsTrim line)) = true) ∧
    extractResponseTextParallel uiAdobePage = uiAdobeLine ∧
    ("Response capture failed.".toList).isPrefixOf
      (extractResponseTextParallel uiAdobePage) = false := by
  exact ⟨⟨rfl, by decide⟩, by decide, by decide⟩

/-! ### Batch scheduler (`testQuestionsParallel` / `testQuestions`, part_005)

The per-question browser work (launch, navigate, type, submit, capture) is
abstracted into a behaviour: for each question and question number it either
produces a captured response or fails with a message.  Everything downstream of
that point — result construction, `Promise.allSettled` collection, batching,
ordering and bookkeeping — is translated from the source. -/

structure QuestionRecord where
  id : String
  text : String
  expectedProduct : String
  productCategory : String
  dimension : String
deriving DecidableEq

structure ResponseCapture where
  text : List Char
  capturedAt : String
  method : String
deriving DecidableEq

/-- The result record built per question (part_005; the opaque `metadata`
passthrough field is omitted). `response`/`error`/`responseTime` are `null` in
the source where `none` here. -/
structure TestResult where
  questionId : String
  question : String
  expectedProduct : String
  productCategory : String
  dimension : String
  response : Option ResponseCapture
  error : Option String
  responseTime : Option Nat
  timestamp : String
deriving DecidableEq

/-- Outcome of the abstracted browser work for one question in parallel mode. -/
inductive ParallelBehavior where
  | succeed (resp : ResponseCapture) (elapsedMs : Nat) (timestamp : String)
  | fail (msg : String)
deriving DecidableEq

def ParallelBehavior.isSucceed : ParallelBehavior → Bool
  | .succeed _ _ _ => true
  | .fail _ => false

/-- A settled promise: fulfilled with a result, or rejected with a message. -/
inductive Outcome where
  | fulfilled (r : TestResult)
  | rejected (msg : String)
deriving DecidableEq

def Outcome.isFulfilled : Outcome → Bool
  | .fulfilled _ => true
  | .rejected _ => false

/-- `testSingleQuestionWithOwnBrowser` (part_005): on success it builds the
result record from the question (so `questionId` is always the question's id);
on any failure the task rejects with `Question N: message` after closing its
browser. -/
def testSingleQuestionWithOwnBrowser (behave : QuestionRecord → Nat → ParallelBehavior)
    (q : QuestionRecord) (questionNumber : Nat) : Outcome :=
  match behave q questionNumber with
  | .succeed resp elapsed ts =>
    .fulfilled { questionId := q.id, question := q.text,
                 expectedProduct := q.expectedProduct,
                 productCategory := q.productCategory, dimension := q.dimension,
                 response := some resp, error := none,
                 responseTime := some elapsed, timestamp := ts }
  | .fail msg =>
    .rejected (("Question ") ++ toString questionNumber ++ (": ") ++ msg)

/-- The batch promises (part_005): one task per batch entry, numbered
`batchIndex * concurrency + index + 1`. -/
def taskOutcomesGo (behave : QuestionRecord → Nat → ParallelBehavior) (base : Nat) :
    Nat → List QuestionRecord → List Outcome
  | _, [] => []
  | idx, q :: rest =>
    testSingleQuestionWithOwnBrowser behave q (base + idx + 1) ::
      taskOutcomesGo behave base (idx + 1) rest

def taskOutcomes (behave : QuestionRecord → Nat → ParallelBehavior)
    (concurrency batchIndex : Nat) (batch : List QuestionRecord) : List Outcome :=
  taskOutcomesGo behave (batchIndex * concurrency) 0 batch

/-- One completion event of `Promise.allSettled`: store task `j`'s outcome at
slot `j` of the settlement array, whenever task `j` completes. -/
def settleStep (outcomes : List Outcome) (arr : List (Option Outcome)) (j : Nat) :
    List (Option Outcome) :=
  match outcomes[j]? with
  | some o => arr.set j (some o)
  | none => arr

/-- `Promise.allSettled`, under an arbitrary completion order: tasks complete
in the order given by `order`, each filling its own slot. -/
def settleFill (outcomes : List Outcome) (order : List Nat) : List (Option Outcome) :=
  order.foldl (settleStep outcomes) (List.replicate outcomes.length none)

/-- The array `Promise.allSettled` resolves with, read out slot by slot. -/
def allSettled (outcomes : List Outcome) (order : List Nat) : List Outcome :=
  (settleFill outcomes order).map (fun x => x.getD (Outcome.rejected ("never settled")))

/-- The batch-result processing loop (part_005): fulfilled values are pushed to
the running result list in slot order; rejected outcomes are only logged and
counted. -/
def fulfilledResults (settled : List Outcome) : List TestResult :=
  settled.filterMap (fun o => match o with
    | .fulfilled r => some r
    | .rejected _ => none)

/-- JavaScript `x || d` for an optional numeric option: absent and `0` are both
falsy (source: `options.concurrency || 3`, `options.limit || questions.length`). -/
def jsOr (o : Option Nat) (d : Nat) : Nat :=
  match o with
  | none => d
  | some 0 => d
  | some (n + 1) => n + 1

/-- `questions.slice(0, options.limit || questions.length)` (part_005). -/
def questionsToTest (questions : List QuestionRecord) (limit : Option Nat) :
    List QuestionRecord :=
  questions.take (jsOr limit questions.length)

/-- The batching loop (part_005): consecutive slices of size `c`.  The fuel is
the list length; one element is consumed per step whenever `0 < c`. -/
def chunkAux (c : Nat) : Nat → List QuestionRecord → List (List QuestionRecord)
  | 0, _ => []
  | _ + 1, [] => []
  | fuel + 1, x :: xs => (x :: xs).take c :: chunkAux c fuel ((x :: xs).drop c)

def chunkList (c : Nat) (xs : List QuestionRecord) : List (List QuestionRecord) :=
  chunkAux c xs.length xs

/-- The outer batch loop (part_005): per batch, settle all its tasks (in an
arbitrary completion order drawn from `schedule`), append the fulfilled results
in slot order, then move to the next batch. -/
def runParallelBatches (behave : QuestionRecord → Nat → ParallelBehavior) (c : Nat)
    (schedule : Nat → List Nat) : Nat → List (List QuestionRecord) → List TestResult
  | _, [] => []
  | bIdx, b :: rest =>
    fulfilledResults (allSettled (taskOutcomes behave c bIdx b) (schedule bIdx)) ++
      runParallelBatches behave c schedule (bIdx + 1) rest

/-- `testQuestionsParallel` (part_005): apply the falsy-default concurrency and
limit, truncate, partition into batches, and run the batches in order. -/
def testQuestionsParallel (behave : QuestionRecord → Nat → ParallelBehavior)
    (questions : List QuestionRecord) (optConcurrency optLimit : Option Nat)
    (schedule : Nat → List Nat) : List TestResult :=
  runParallelBatches behave (jsOr optConcurrency 3) schedule 0
    (chunkList (jsOr optConcurrency 3) (questionsToTest questions optLimit))

/-- All task outcomes of a batch list, flattened in input order. -/
def batchOutcomesFrom (behave : QuestionRecord → Nat → ParallelBehavior) (c : Nat) :
    Nat → List (List QuestionRecord) → List Outcome
  | _, [] => []
  | bIdx, b :: rest =>
    taskOutcomes behave c bIdx b ++ batchOutcomesFrom behave c (bIdx + 1) rest

/-- A schedule is admissible for a batch list when every task of every batch
eventually completes (its index appears in that batch's completion order). -/
def Covers (schedule : Nat → List Nat) (batches : List (List QuestionRecord)) : Prop :=
  ∀ bIdx batch, batches[bIdx]? = some batch →
    ∀ i, i < batch.length → i ∈ schedule bIdx

theorem settleStep_length (outcomes : List Outcome) (arr : List (Option Outcome))
    (j : Nat) : (settleStep outcomes arr j).length = arr.length := by
  unfold settleStep
  cases outcomes[j]? with
  | none => rfl
  | some o => exact List.length_set arr j (some o)

theorem settleFold_length (outcomes : List Outcome) :
    ∀ (order : List Nat) (arr : List (Option Outcome)),
      (order.foldl (settleStep outcomes) arr).length = arr.length
  | [], arr => rfl
  | j :: rest, arr => by
    rw [List.foldl_cons, settleFold_length outcomes rest _, settleStep_length]

theorem settleFold_getElem (outcomes : List Outcome) {i : Nat}
    (hi : i < outcomes.length) :
    ∀ (order : List Nat) (arr : List (Option Outcome)),
      arr.length = outcomes.length →
      (order.foldl (settleStep outcomes) arr)[i]? =
        if i ∈ order then some (some (outcomes.get ⟨i, hi⟩)) else arr[i]?
  | [], arr, harr => by simp
  | j :: rest, arr, harr => by
    rw [List.foldl_cons,
      settleFold_getElem outcomes hi rest (settleStep outcomes arr j)
        (by rw [settleStep_length]; exact harr)]
    by_cases hir : i ∈ rest
    · rw [if_pos hir, if_pos (List.mem_cons_of_mem j hir)]
    · rw [if_neg hir]
      by_cases hij : i = j
      · subst hij
        rw [if_pos (List.mem_cons_self i rest)]
        unfold settleStep
        rw [List.getElem?_eq_getElem hi]
        exact List.getElem?_set_self (by omega)
      · have hstep : (settleStep outcomes arr j)[i]? = arr[i]? := by
          unfold settleStep
          cases outcomes[j]? with
          | none => rfl
          | some o => exact List.getElem?_set_ne (fun h => hij h.symm)
        rw [hstep, if_neg (by
          intro hmem
          rcases List.mem_cons.mp hmem with h | h
          · exact hij h
          · exact hir h)]

theorem allSettled_eq_of_covers (outcomes : List Outcome) (order : List Nat)
    (hcov : ∀ i, i < outcomes.length → i ∈ order) :
    allSettled outcomes order = outcomes := by
  unfold allSettled settleFill
  apply List.ext_getElem?
  intro i
  rw [List.getElem?_map]
  by_cases hi : i < outcomes.length
  · rw [settleFold_getElem outcomes hi order _ (by simp)]
    rw [if_pos (hcov i hi)]
    rw [List.getElem?_eq_getElem hi]
    rfl
  · have h1 : outcomes[i]? = none := List.getElem?_eq_none (by omega)
    have h2 : (order.foldl (settleStep outcomes) (List.replicate outcomes.length none))[i]? =
        none := by
      apply List.getElem?_eq_none
      rw [settleFold_length]
      simp
      omega
    rw [h1, h2]
    rfl

theorem fulfilledResults_append (a b : List Outcome) :
    fulfilledResults (a ++ b) = fulfilledResults a ++ fulfilledResults b :=
  List.filterMap_append a b _

theorem fulfilledResults_length (outcomes : List Outcome) :
    (fulfilledResults outcomes).length = outcomes.countP Outcome.isFulfilled := by
  induction outcomes with
  | nil => rfl
  | cons o rest ih =>
    unfold fulfilledResults at *
    cases o with
    | fulfilled r =>
      rw [List.filterMap_cons, List.countP_cons]
      simp [Outcome.isFulfilled, ih]
    | rejected m =>
      rw [List.filterMap_cons, List.countP_cons]
      simp [Outcome.isFulfilled, ih]

theorem taskOutcomesGo_length (behave : QuestionRecord → Nat → ParallelBehavior)
    (base : Nat) : ∀ idx batch, (taskOutcomesGo behave base idx batch).length = batch.length
  | _, [] => rfl
  | idx, q :: rest => by
    rw [taskOutcomesGo, List.length_cons, List.length_cons,
      taskOutcomesGo_length behave base (idx + 1) rest]

theorem runParallelBatches_eq (behave : QuestionRecord → Nat → ParallelBehavior)
    (c : Nat) (schedule : Nat → List Nat) :
    ∀ (bIdx : Nat) (batches : List (List QuestionRecord)),
      (∀ k batch, batches[k]? = some batch →
        ∀ i, i < batch.length → i ∈ schedule (bIdx + k)) →
      runParallelBatches behave c schedule bIdx batches =
        fulfilledResults (batchOutcomesFrom behave c bIdx batches)
  | _, [], _ => rfl
  | bIdx, b :: rest, h => by
    rw [runParallelBatches, batchOutcomesFrom, fulfilledResults_append]
    have hcov : ∀ i, i < (taskOutcomes behave c bIdx b).length → i ∈ schedule bIdx := by
      intro i hi
      rw [taskOutcomes, taskOutcomesGo_length] at hi
      have hb : (b :: rest)[0]? = some b := by simp
      simpa using h 0 b hb i hi
    rw [allSettled_eq_of_covers _ _ hcov]
    congr 1
    exact runParallelBatches_eq behave c schedule (bIdx + 1) rest
      (fun k batch hk i hi => by
        have hres := h (k + 1) batch (by simpa using hk) i hi
        have harith : bIdx + (k + 1) = bIdx + 1 + k := by omega
        rwa [harith] at hres)

/-! ### Sequential mode (`testQuestion` / `testQuestions`, part_005) -/

/-- Outcome of the abstracted browser work for one question in sequential mode. -/
inductive AttemptOutcome where
  | success (resp : ResponseCapture) (elapsedMs : Nat)
  | failure (msg : String)
deriving DecidableEq

/-- Observable pacing events of one sequential question attempt. -/
inductive SessionEvent where
  | waited (ms : Nat)
deriving DecidableEq

/-- The error-shaped result record of `testQuestion`'s catch block and of
`testQuestions`'s per-question catch block (part_005). -/
def errorResultOf (q : QuestionRecord) (msg : String) (now : String) : TestResult :=
  { questionId := q.id, question := q.text, expectedProduct := q.expectedProduct,
    productCategory := q.productCategory, dimension := q.dimension,
    response := none, error := some msg, responseTime := none, timestamp := now }

/-- `testQuestion` (part_005): a successful attempt produces a success-shaped
result and then waits `delayBetweenQuestions` (when positive); a failed attempt
is caught and produces an error-shaped result, returning immediately — the
delay is only on the success path. -/
def testQuestion (behave : QuestionRecord → AttemptOutcome)
    (delayBetweenQuestions : Nat) (now : String) (q : QuestionRecord) :
    TestResult × List SessionEvent :=
  match behave q with
  | .success resp elapsed =>
    ({ questionId := q.id, question := q.text, expectedProduct := q.expectedProduct,
       productCategory := q.productCategory, dimension := q.dimension,
       response := some resp, error := none, responseTime := some elapsed,
       timestamp := now },
     if 0 < delayBetweenQuestions then [SessionEvent.waited delayBetweenQuestions] else [])
  | .failure msg => (errorResultOf q msg now, [])

/-- `config.execution.delayBetweenQuestions` (config.js): 8000 ms. -/
def config_delayBetweenQuestions : Nat := 8000

/-- The sequential loop of `testQuestions` (part_005): before each question but
the first, optionally reload the page (`reloadFailure i` is the error message
when that reload/interface wait throws, caught by pushing an error-shaped
result); otherwise run `testQuestion`, which never throws. -/
def testQuestionsGo (behave : QuestionRecord → AttemptOutcome)
    (reloadFailure : Nat → Option String) (refresh : Bool) (d : Nat) (now : String) :
    Nat → List QuestionRecord → List TestResult
  | _, [] => []
  | i, q :: rest =>
    (if 0 < i ∧ refresh = true then
      match reloadFailure i with
      | some msg => errorResultOf q msg now
      | none => (testQuestion behave d now q).1
     else (testQuestion behave d now q).1) ::
      testQuestionsGo behave reloadFailure refresh d now (i + 1) rest

/-- `testQuestions` (part_005). -/
def testQuestions (behave : QuestionRecord → AttemptOutcome)
    (reloadFailure : Nat → Option String) (refresh : Bool) (d : Nat) (now : String)
    (questions : List QuestionRecord) : List TestResult :=
  testQuestionsGo behave reloadFailure refresh d now 0 questions

/-- A result carrying a captured response and no error. -/
def successShaped (r : TestResult) : Prop :=
  r.error = none ∧ r.response.isSome = true

/-- A result carrying an error message. -/
def errorShaped (r : TestResult) : Prop :=
  ∃ msg, r.error = some msg

theorem testQuestion_fst_shape (behave : QuestionRecord → AttemptOutcome)
    (d : Nat) (now : String) (q : QuestionRecord) :
    successShaped (testQuestion behave d now q).1 ∨
      errorShaped (testQuestion behave d now q).1 := by
  unfold testQuestion
  cases behave q with
  | success resp elapsed => exact Or.inl ⟨rfl, rfl⟩
  | failure msg => exact Or.inr ⟨msg, rfl⟩

theorem testQuestionsGo_length (behave : QuestionRecord → AttemptOutcome)
    (reloadFailure : Nat → Option String) (refresh : Bool) (d : Nat) (now : String) :
    ∀ i qs, (testQuestionsGo behave reloadFailure refresh d now i qs).length = qs.length
  | _, [] => rfl
  | i, q :: rest => by
    rw [testQuestionsGo, List.length_cons, List.length_cons,
      testQuestionsGo_length behave reloadFailure refresh d now (i + 1) rest]

theorem testQuestionsGo_shape (behave : QuestionRecord → AttemptOutcome)
    (reloadFailure : Nat → Option String) (refresh : Bool) (d : Nat) (now : String) :
    ∀ i qs r, r ∈ testQuestionsGo behave reloadFailure refresh d now i qs →
      successShaped r ∨ errorShaped r
  | _, [], r, hr => absurd hr (List.not_mem_nil r)
  | i, q :: rest, r, hr => by
    rw [testQuestionsGo] at hr
    rcases List.mem_cons.mp hr with rfl | hmem
    · by_cases hc : 0 < i ∧ refresh = true
      · rw [if_pos hc]
        cases reloadFailure i with
        | some msg => exact Or.inr ⟨msg, rfl⟩
        | none => exact testQuestion_fst_shape behave d now q
      · rw [if_neg hc]
        exact testQuestion_fst_shape behave d now q
    · exact testQuestionsGo_shape behave reloadFailure refresh d now (i + 1) rest r hmem

/-- C1 (amended): in sequential mode the returned list has exactly one entry
per input question, each success-shaped or error-shaped; in parallel mode,
under any admissible completion schedule, the returned list is exactly the
fulfilled tasks' results in input order — a rejected task contributes no entry
(it is only counted and logged), so the length is the number of fulfilled
tasks, not necessarily N. -/
theorem claim1_one_result_per_question :
    (∀ (behave : QuestionRecord → AttemptOutcome) (reloadFailure : Nat → Option String)
        (refresh : Bool) (d : Nat) (now : String) (qs : List QuestionRecord),
      (testQuestions behave reloadFailure refresh d now qs).length = qs.length ∧
      ∀ r ∈ testQuestions behave reloadFailure refresh d now qs,
        successShaped r ∨ errorShaped r) ∧
    (∀ (behave : QuestionRecord → Nat → ParallelBehavior) (qs : List QuestionRecord)
        (oc ol : Option Nat) (schedule : Nat → List Nat),
      Covers schedule (chunkList (jsOr oc 3) (questionsToTest qs ol)) →
      testQuestionsParallel behave qs oc ol schedule =
        fulfilledResults (batchOutcomesFrom behave (jsOr oc 3) 0
          (chunkList (jsOr oc 3) (questionsToTest qs ol))) ∧
      (testQuestionsParallel behave qs oc ol schedule).length =
        (batchOutcomesFrom behave (jsOr oc 3) 0
          (chunkList (jsOr oc 3) (questionsToTest qs ol))).countP Outcome.isFulfilled) := by
  constructor
  · intro behave reloadFailure refresh d now qs
    exact ⟨testQuestionsGo_length behave reloadFailure refresh d now 0 qs,
      fun r hr => testQuestionsGo_shape behave reloadFailure refresh d now 0 qs r hr⟩
  · intro behave qs oc ol schedule hcov
    have heq : testQuestionsParallel behave qs oc ol schedule =
        fulfilledResults (batchOutcomesFrom behave (jsOr oc 3) 0
          (chunkList (jsOr oc 3) (questionsToTest qs ol))) := by
      unfold testQuestionsParallel
      exact runParallelBatches_eq behave (jsOr oc 3) schedule 0 _
        (fun k batch hk i hi => by
          have := hcov k batch hk i hi
          simpa using this)
    exact ⟨heq, by rw [heq, fulfilledResults_length]⟩

/-- Concrete records for witnesses and counterexamples. -/
def qRecA : QuestionRecord :=
  { id := "Q1", text := "question one", expectedProduct := "Photoshop",
    productCategory := "photo", dimension := "accuracy" }

def qRecB : QuestionRecord :=
  { id := "Q2", text := "question two", expectedProduct := "Illustrator",
    productCategory := "design", dimension := "accuracy" }

def qRecC : QuestionRecord :=
  { id := "Q3", text := "question three", expectedProduct := "Premiere",
    productCategory := "video", dimension := "coverage" }

def sampleResp : ResponseCapture :=
  { text := ("ok".toList), capturedAt := "t", method := "parallel-extraction" }

/-- Fails the first question, succeeds on the rest. -/
def mixedBehavior : QuestionRecord → Nat → ParallelBehavior :=
  fun q _ =>
    if q.id == "Q1" then ParallelBehavior.fail ("boom")
    else ParallelBehavior.succeed sampleResp 5 "ts"

/-- Every task succeeds. -/
def okBehavior : QuestionRecord → Nat → ParallelBehavior :=
  fun _ _ => ParallelBehavior.succeed sampleResp 5 "ts"

/-- Within each batch, later tasks complete before earlier ones. -/
def swapSchedule : Nat → List Nat :=
  fun _ => [1, 0]

theorem claim1_one_result_per_question_witness :
    testQuestionsParallel mixedBehavior [qRecA, qRecB] (some 2) none swapSchedule =
      fulfilledResults (batchOutcomesFrom mixedBehavior 2 0
        (chunkList 2 (questionsToTest [qRecA, qRecB] none))) ∧
    (testQuestionsParallel mixedBehavior [qRecA, qRecB] (some 2) none swapSchedule).length =
      (batchOutcomesFrom mixedBehavior 2 0
        (chunkList 2 (questionsToTest [qRecA, qRecB] none))).countP Outcome.isFulfilled :=
  claim1_one_result_per_question.2 mixedBehavior [qRecA, qRecB] (some 2) none swapSchedule
    (by
      intro bIdx batch hb i hi
      match bIdx with
      | 0 =>
        have hb2 : some [qRecA, qRecB] = some batch := hb
        injection hb2 with hb3
        rw [← hb3] at hi
        have h2 : i < 2 := by simpa using hi
        have : i = 0 ∨ i = 1 := by omega
        rcases this with rfl | rfl <;> decide
      | n + 1 =>
        have hb2 : (none : Option (List QuestionRecord)) = some batch := hb
        exact Option.noConfusion hb2)

/-- C1 counterexample: with a single question whose parallel task rejects, the
parallel run returns an empty result list — size 0 for input size 1, and the
rejected question's outcome appears in no entry. -/
theorem claim1_counterexample :
    ([qRecA].length = 1) ∧
    testQuestionsParallel (fun _ _ => ParallelBehavior.fail ("boom")) [qRecA]
      (some 3) none (fun _ => [0]) = [] :=
  ⟨rfl, by decide⟩

theorem jsOr_pos (o : Option Nat) : 0 < jsOr o 3 := by
  unfold jsOr
  cases o with
  | none => decide
  | some n => cases n with
    | zero => decide
    | succ k => exact Nat.succ_pos k

theorem chunkAux_flatten (c : Nat) (hc : 0 < c) :
    ∀ fuel (xs : List QuestionRecord), xs.length ≤ fuel →
      (chunkAux c fuel xs).flatten = xs
  | 0, xs, h => by
    have hx : xs = [] := List.eq_nil_of_length_eq_zero (by omega)
    subst hx
    rfl
  | fuel + 1, [], _ => rfl
  | fuel + 1, x :: xs, h => by
    rw [chunkAux, List.flatten_cons,
      chunkAux_flatten c hc fuel ((x :: xs).drop c)
        (by rw [List.length_drop]; simp at h ⊢; omega)]
    exact List.take_append_drop c (x :: xs)

theorem fulfilledResults_cons_fulfilled (r : TestResult) (l : List Outcome) :
    fulfilledResults (Outcome.fulfilled r :: l) = r :: fulfilledResults l := rfl

theorem fulfilledResults_cons_rejected (m : String) (l : List Outcome) :
    fulfilledResults (Outcome.rejected m :: l) = fulfilledResults l := rfl

theorem fulfilled_taskOutcomesGo_ids (behave : QuestionRecord → Nat → ParallelBehavior)
    (hsucc : ∀ q n, (behave q n).isSucceed = true) (base : Nat) :
    ∀ idx batch, (fulfilledResults (taskOutcomesGo behave base idx batch)).map
      TestResult.questionId = batch.map QuestionRecord.id
  | _, [] => rfl
  | idx, q :: rest => by
    rw [taskOutcomesGo]
    have hb2 := hsucc q (base + idx + 1)
    cases hb : behave q (base + idx + 1) with
    | fail msg =>
      rw [hb] at hb2
      cases hb2
    | succeed resp elapsed ts =>
      have hstep : testSingleQuestionWithOwnBrowser behave q (base + idx + 1) =
          Outcome.fulfilled
            { questionId := q.id, question := q.text,
              expectedProduct := q.expectedProduct,
              productCategory := q.productCategory, dimension := q.dimension,
              response := some resp, error := none, responseTime := some elapsed,
              timestamp := ts } := by
        unfold testSingleQuestionWithOwnBrowser
        rw [hb]
      rw [hstep, fulfilledResults_cons_fulfilled, List.map_cons, List.map_cons,
        fulfilled_taskOutcomesGo_ids behave hsucc base (idx + 1) rest]

theorem fulfilled_batchOutcomes_ids (behave : QuestionRecord → Nat → ParallelBehavior)
    (hsucc : ∀ q n, (behave q n).isSucceed = true) (c : Nat) :
    ∀ (bIdx : Nat) (batches : List (List QuestionRecord)),
      (fulfilledResults (batchOutcomesFrom behave c bIdx batches)).map
        TestResult.questionId = batches.flatten.map QuestionRecord.id
  | _, [] => rfl
  | bIdx, b :: rest => by
    rw [batchOutcomesFrom, fulfilledResults_append, List.map_append,
      List.flatten_cons, List.map_append]
    unfold taskOutcomes
    rw [fulfilled_taskOutcomesGo_ids behave hsucc (bIdx * c) 0 b,
      fulfilled_batchOutcomes_ids behave hsucc c (bIdx + 1) rest]

/-- C2 (amended): for every question list, concurrency, limit and admissible
intra-batch completion order, when every task fulfills, the i-th element of the
parallel result list corresponds to the i-th input question (its `questionId`
is the i-th question's id, in input order) — completion order never affects
output order.  (When a task rejects, its question is dropped from the output —
see the C1 analysis — so exact positional correspondence holds only in the
all-fulfilled case.) -/
theorem claim2_order_preservation
    (behave : QuestionRecord → Nat → ParallelBehavior) (qs : List QuestionRecord)
    (oc ol : Option Nat) (schedule : Nat → List Nat)
    (hcov : Covers schedule (chunkList (jsOr oc 3) (questionsToTest qs ol)))
    (hconc : 1 < jsOr oc 3)
    (hsucc : ∀ q n, (behave q n).isSucceed = true) :
    (testQuestionsParallel behave qs oc ol schedule).map TestResult.questionId =
      (questionsToTest qs ol).map QuestionRecord.id := by
  unfold testQuestionsParallel
  rw [runParallelBatches_eq behave (jsOr oc 3) schedule 0 _
    (fun k batch hk i hi => by simpa using hcov k batch hk i hi)]
  rw [fulfilled_batchOutcomes_ids behave hsucc (jsOr oc 3) 0 _]
  rw [chunkList, chunkAux_flatten (jsOr oc 3) (jsOr_pos oc)
    (questionsToTest qs ol).length (questionsToTest qs ol) (Nat.le_refl _)]

theorem claim2_order_preservation_witness :
    (testQuestionsParallel okBehavior [qRecA, qRecB, qRecC] (some 2) none
      swapSchedule).map TestResult.questionId =
    (questionsToTest [qRecA, qRecB, qRecC] none).map QuestionRecord.id :=
  claim2_order_preservation okBehavior [qRecA, qRecB, qRecC] (some 2) none swapSchedule
    (by
      intro bIdx batch hb i hi
      match bIdx with
      | 0 =>
        have hb2 : some [qRecA, qRecB] = some batch := hb
        injection hb2 with hb3
        rw [← hb3] at hi
        have h2 : i < 2 := by simpa using hi
        have : i = 0 ∨ i = 1 := by omega
        rcases this with rfl | rfl <;> decide
      | 1 =>
        have hb2 : some [qRecC] = some batch := hb
        injection hb2 with hb3
        rw [← hb3] at hi
        have h2 : i < 1 := by simpa using hi
        have : i = 0 := by omega
        subst this
        decide
      | n + 2 =>
        have hb2 : (none : Option (List QuestionRecord)) = some batch := hb
        exact Option.noConfusion hb2)
    (by decide)
    (fun _ _ => rfl)

/-- C2 counterexample: two questions, concurrency 2, the first task rejects and
the second fulfills; the result list is `[Q2's result]`, so its 0-th element
does not correspond to the 0-th input question (and no element does for Q1). -/
theorem claim2_counterexample :
    (testQuestionsParallel mixedBehavior [qRecA, qRecB] (some 2) none
      swapSchedule).map TestResult.questionId = ["Q2"] ∧
    ¬ ((testQuestionsParallel mixedBehavior [qRecA, qRecB] (some 2) none
      swapSchedule).map TestResult.questionId = ["Q1", "Q2"]) :=
  ⟨by decide, by decide⟩

/-- Sizes of the consecutive chunks of a list of length `n` cut into slices of
size `c` (fuel-indexed like `chunkAux`). -/
def chunkSizes (c : Nat) : Nat → Nat → List Nat
  | 0, _ => []
  | _ + 1, 0 => []
  | fuel + 1, n + 1 => min c (n + 1) :: chunkSizes c fuel (n + 1 - c)

theorem chunkAux_map_length (c : Nat) :
    ∀ fuel (xs : List QuestionRecord),
      (chunkAux c fuel xs).map List.length = chunkSizes c fuel xs.length
  | 0, xs => rfl
  | fuel + 1, [] => rfl
  | fuel + 1, x :: xs => by
    rw [chunkAux, List.map_cons, List.length_take,
      chunkAux_map_length c fuel ((x :: xs).drop c), List.length_drop]
    rfl

theorem chunkAux_mem_bounds (c : Nat) (hc : 0 < c) :
    ∀ fuel (xs : List QuestionRecord), ∀ b ∈ chunkAux c fuel xs,
      0 < b.length ∧ b.length ≤ c
  | 0, xs => by
    intro b hb
    cases hb
  | fuel + 1, [] => by
    intro b hb
    cases hb
  | fuel + 1, x :: xs => by
    intro b hb
    rw [chunkAux] at hb
    rcases List.mem_cons.mp hb with rfl | hmem
    · rw [List.length_take]
      constructor
      · have : 0 < (x :: xs).length := by simp
        omega
      · omega
    · exact chunkAux_mem_bounds c hc fuel ((x :: xs).drop c) b hmem

theorem chunkAux_nil_of_nil (c : Nat) : ∀ fuel, chunkAux c fuel [] = []
  | 0 => rfl
  | _ + 1 => rfl

theorem chunkAux_full (c : Nat) (hc : 0 < c) :
    ∀ fuel (xs : List QuestionRecord) (i : Nat)
      (h : i + 1 < (chunkAux c fuel xs).length),
      ((chunkAux c fuel xs).get ⟨i, Nat.lt_of_succ_lt h⟩).length = c
  | 0, xs, i, h => by
    cases h
  | fuel + 1, [], i, h => by
    cases h
  | fuel + 1, x :: xs, 0, h => by
    rw [chunkAux] at h
    have hrest : chunkAux c fuel ((x :: xs).drop c) ≠ [] := by
      intro hnil
      rw [List.length_cons, hnil] at h
      simp at h
    have hdrop : (x :: xs).drop c ≠ [] := by
      intro hdnil
      rw [hdnil, chunkAux_nil_of_nil] at hrest
      exact hrest rfl
    have hlen : c < (x :: xs).length := by
      by_contra hle
      exact hdrop (List.drop_eq_nil_of_le (by omega))
    show ((x :: xs).take c).length = c
    rw [List.length_take]
    omega
  | fuel + 1, x :: xs, i + 1, h => by
    have h2 : i + 1 < (chunkAux c fuel ((x :: xs).drop c)).length := by
      rw [chunkAux, List.length_cons] at h
      omega
    exact chunkAux_full c hc fuel ((x :: xs).drop c) i h2

/-- C7 (amended): the parallel scheduler truncates the question list to the
limit when one is given and nonzero (a zero limit is falsy in the source and
leaves the list untruncated — see the counterexample), then partitions the
truncated list into consecutive nonempty batches of size at most the
concurrency, all full except possibly the last, whose concatenation in order is
the truncated list; for 10 questions and concurrency 3 the batch sizes are
exactly [3, 3, 3, 1]; and the parallel run processes exactly these batches
strictly in sequence. -/
theorem claim7_batch_partition (qs : List QuestionRecord) (oc ol : Option Nat) :
    (chunkList (jsOr oc 3) (questionsToTest qs ol)).flatten = questionsToTest qs ol ∧
    (∀ b ∈ chunkList (jsOr oc 3) (questionsToTest qs ol),
      0 < b.length ∧ b.length ≤ jsOr oc 3) ∧
    (∀ i (h : i + 1 < (chunkList (jsOr oc 3) (questionsToTest qs ol)).length),
      ((chunkList (jsOr oc 3) (questionsToTest qs ol)).get
        ⟨i, Nat.lt_of_succ_lt h⟩).length = jsOr oc 3) ∧
    (qs.length = 10 → oc = some 3 → ol = none →
      (chunkList (jsOr oc 3) (questionsToTest qs ol)).map List.length = [3, 3, 3, 1]) ∧
    (∀ (behave : QuestionRecord → Nat → ParallelBehavior) (schedule : Nat → List Nat),
      testQuestionsParallel behave qs oc ol schedule =
        runParallelBatches behave (jsOr oc 3) schedule 0
          (chunkList (jsOr oc 3) (questionsToTest qs ol))) := by
  refine ⟨?_, ?_, ?_, ?_, ?_⟩
  · exact chunkAux_flatten (jsOr oc 3) (jsOr_pos oc) _ _ (Nat.le_refl _)
  · exact fun b hb => chunkAux_mem_bounds (jsOr oc 3) (jsOr_pos oc) _ _ b hb
  · exact fun i h => chunkAux_full (jsOr oc 3) (jsOr_pos oc) _ _ i h
  · intro h10 hoc hol
    subst hoc
    subst hol
    have hq : questionsToTest qs none = qs := List.take_length qs
    rw [show jsOr (some 3) 3 = 3 from rfl, hq, chunkList, chunkAux_map_length, h10]
    decide
  · intro behave schedule
    rfl

/-- Ten question records. -/
def tenQuestions : List QuestionRecord := List.replicate 10 qRecA

theorem claim7_batch_partition_witness :
    (chunkList (jsOr (some 3) 3) (questionsToTest tenQuestions none)).map List.length
      = [3, 3, 3, 1] :=
  (claim7_batch_partition tenQuestions (some 3) none).2.2.2.1 (by decide) rfl rfl

/-- C7 counterexample: a given limit of `0` is falsy in the source
(`options.limit || questions.length`), so the list is NOT truncated to the
given limit: one question stays selected where the claim requires zero. -/
theorem claim7_counterexample :
    questionsToTest [qRecA] (some 0) = [qRecA] ∧
    (questionsToTest [qRecA] (some 0)).length ≠ 0 :=
  ⟨rfl, by decide⟩

/-! ### Checkpointing and persistence (`testQuestionsParallel` / `saveResults`,
part_005) -/

inductive SinkEvent where
  | checkpointWrite (resultCount : Nat)
  | finalRawWrite (results : List TestResult)
  | interBatchPause (ms : Nat)
deriving DecidableEq

def SinkEvent.isCheckpoint : SinkEvent → Bool
  | .checkpointWrite _ => true
  | _ => false

def SinkEvent.isPause : SinkEvent → Bool
  | .interBatchPause _ => true
  | _ => false

/-- The pauses of the parallel batch loop (part_005): 1000 ms between
consecutive batches, none after the last; the loop body writes no file. -/
def parallelPauses : List (List QuestionRecord) → List SinkEvent
  | [] => []
  | [_] => []
  | _ :: b :: rest => SinkEvent.interBatchPause 1000 :: parallelPauses (b :: rest)

/-- The persistence trace of `testQuestionsParallel` (part_005): the
inter-batch pauses, then — after all batches — one write of the bare result
array (`fs.writeJson(outputPath, allResults)`: no metadata wrapper, no
intermediate checkpoint anywhere). -/
def testQuestionsParallelTrace (behave : QuestionRecord → Nat → ParallelBehavior)
    (questions : List QuestionRecord) (oc ol : Option Nat)
    (schedule : Nat → List Nat) : List SinkEvent :=
  parallelPauses (chunkList (jsOr oc 3) (questionsToTest questions ol)) ++
    [SinkEvent.finalRawWrite (testQuestionsParallel behave questions oc ol schedule)]

/-- The metadata block `saveResults` writes (part_005; the echoed browser and
execution config blocks are omitted). -/
structure SaveMetadata where
  totalQuestions : Nat
  testSession : String
  completedAt : String
deriving DecidableEq

structure ResultsFile where
  metadata : SaveMetadata
  results : List TestResult
deriving DecidableEq

/-- `saveResults` (part_005): wrap the results with self-describing metadata
carrying their count and the completion timestamp. -/
def saveResults (results : List TestResult) (testSession : String)
    (now : String) : ResultsFile :=
  { metadata := { totalQuestions := results.length, testSession := testSession,
                  completedAt := now },
    results := results }

theorem parallelPauses_all_pause :
    ∀ (batches : List (List QuestionRecord)), ∀ e ∈ parallelPauses batches,
      e = SinkEvent.interBatchPause 1000
  | [], e, he => absurd he (List.not_mem_nil e)
  | [_], e, he => absurd he (List.not_mem_nil e)
  | _ :: b :: rest, e, he => by
    rw [parallelPauses] at he
    rcases List.mem_cons.mp he with rfl | hm
    · rfl
    · exact parallelPauses_all_pause (b :: rest) e hm

theorem parallelPauses_length :
    ∀ (batches : List (List QuestionRecord)),
      (parallelPauses batches).length = batches.length - 1
  | [] => rfl
  | [_] => rfl
  | _ :: b :: rest => by
    rw [parallelPauses, List.length_cons, parallelPauses_length (b :: rest)]
    simp

/-- C8 (amended): in parallel mode no per-batch checkpoint is written: every
event of the persistence trace before the end is a 1000 ms inter-batch pause
(one per consecutive batch pair), and the run ends with a single write of the
bare result array, carrying no metadata.  Self-describing metadata — a total
count equal to the number of results and a completion timestamp — is what
`saveResults` writes, the sink used by the sequential path. -/
theorem claim8_checkpoints :
    (∀ (behave : QuestionRecord → Nat → ParallelBehavior) (qs : List QuestionRecord)
        (oc ol : Option Nat) (schedule : Nat → List Nat),
      (∀ e ∈ testQuestionsParallelTrace behave qs oc ol schedule,
        e.isCheckpoint = false) ∧
      (testQuestionsParallelTrace behave qs oc ol schedule).countP SinkEvent.isPause =
        (chunkList (jsOr oc 3) (questionsToTest qs ol)).length - 1 ∧
      (testQuestionsParallelTrace behave qs oc ol schedule).getLast? =
        some (SinkEvent.finalRawWrite (testQuestionsParallel behave qs oc ol schedule))) ∧
    (∀ (results : List TestResult) (session now : String),
      (saveResults results session now).metadata.totalQuestions = results.length ∧
      (saveResults results session now).metadata.completedAt = now) := by
  constructor
  · intro behave qs oc ol schedule
    refine ⟨?_, ?_, ?_⟩
    · intro e he
      unfold testQuestionsParallelTrace at he
      rcases List.mem_append.mp he with hp | hf
      · rw [parallelPauses_all_pause _ e hp]
        rfl
      · rcases List.mem_cons.mp hf with rfl | hnil
        · rfl
        · exact absurd hnil (List.not_mem_nil e)
    · unfold testQuestionsParallelTrace
      rw [List.countP_append]
      have h1 : (parallelPauses (chunkList (jsOr oc 3) (questionsToTest qs ol))).countP
          SinkEvent.isPause =
          (parallelPauses (chunkList (jsOr oc 3) (questionsToTest qs ol))).length := by
        apply List.countP_eq_length.mpr
        intro e he
        rw [parallelPauses_all_pause _ e he]
        rfl
      rw [h1, parallelPauses_length]
      rfl
    · exact List.getLast?_concat _
  · intro results session now
    exact ⟨rfl, rfl⟩

theorem claim8_checkpoints_witness :
    SinkEvent.isCheckpoint (SinkEvent.interBatchPause 1000) = false ∧
    (saveResults [] ("s") ("t")).metadata.totalQuestions = 0 :=
  ⟨(claim8_checkpoints.1 okBehavior [qRecA, qRecB, qRecC] (some 2) none swapSchedule).1
      (SinkEvent.interBatchPause 1000) (by decide),
   (claim8_checkpoints.2 [] ("s") ("t")).1⟩

def qRecD : QuestionRecord :=
  { id := "Q4", text := "question four", expectedProduct := "Lightroom",
    productCategory := "photo", dimension := "coverage" }

/-- C8 counterexample: a parallel run with two batches (4 questions,
concurrency 2) writes zero checkpoints — its persistence trace contains no
checkpoint event at all, refuting "a durable checkpoint after each batch". -/
theorem claim8_counterexample :
    (chunkList 2 (questionsToTest [qRecA, qRecB, qRecC, qRecD] none)).length = 2 ∧
    (testQuestionsParallelTrace okBehavior [qRecA, qRecB, qRecC, qRecD] (some 2) none
      swapSchedule).countP SinkEvent.isCheckpoint = 0 :=
  ⟨by decide, by decide⟩

/-- C9 (amended): after a successful attempt the session waits the configured
inter-question delay (default 8000 ms, skipped only when configured to 0)
before the next question; after an error-shaped attempt the method returns
from its catch block immediately — no inter-question delay is applied. -/
theorem claim9_inter_question_delay :
    (∀ (behave : QuestionRecord → AttemptOutcome) (d : Nat) (now : String)
        (q : QuestionRecord) (resp : ResponseCapture) (elapsed : Nat),
      behave q = AttemptOutcome.success resp elapsed → 0 < d →
      (testQuestion behave d now q).2 = [SessionEvent.waited d] ∧
      successShaped (testQuestion behave d now q).1) ∧
    (∀ (behave : QuestionRecord → AttemptOutcome) (d : Nat) (now : String)
        (q : QuestionRecord) (msg : String),
      behave q = AttemptOutcome.failure msg →
      (testQuestion behave d now q).2 = [] ∧
      (testQuestion behave d now q).1.error = some msg) ∧
    config_delayBetweenQuestions = 8000 := by
  refine ⟨?_, ?_, rfl⟩
  · intro behave d now q resp elapsed hb hd
    unfold testQuestion
    rw [hb]
    exact ⟨by rw [if_pos hd], ⟨rfl, rfl⟩⟩
  · intro behave d now q msg hb
    unfold testQuestion
    rw [hb]
    exact ⟨rfl, rfl⟩

def alwaysSucceed : QuestionRecord → AttemptOutcome :=
  fun _ => AttemptOutcome.success sampleResp 5

theorem claim9_inter_question_delay_witness :
    (testQuestion alwaysSucceed config_delayBetweenQuestions ("t0") qRecA).2 =
      [SessionEvent.waited config_delayBetweenQuestions] ∧
    successShaped (testQuestion alwaysSucceed config_delayBetweenQuestions ("t0") qRecA).1 :=
  claim9_inter_question_delay.1 alwaysSucceed config_delayBetweenQuestions ("t0") qRecA
    sampleResp 5 rfl (by decide)

def alwaysFail : QuestionRecord → AttemptOutcome :=
  fun _ => AttemptOutcome.failure ("boom")

/-- C9 counterexample: an attempt that produced an error-shaped result waits
nothing at all before the next question — the pacing-event trace is empty,
where the claim requires a `delayBetweenQuestions` wait. -/
theorem claim9_counterexample :
    (testQuestion alwaysFail config_delayBetweenQuestions ("t0") qRecA).1.error =
      some ("boom") ∧
    (testQuestion alwaysFail config_delayBetweenQuestions ("t0") qRecA).2 = [] :=
  ⟨rfl, rfl⟩

/-! ### Execution-path selection (`runAutomatedTesting`, part_004) -/

inductive ExecPath where
  | parallelPath
  | sequentialPath
deriving DecidableEq

/-- The per-product question selection of `runAutomatedTesting` (part_004):
with a (truthy) limit, each product contributes
`max 1 (limit / numProducts)` questions and the first `limit % numProducts`
products one extra; otherwise all questions of all products. -/
def selectGo (questionsPerProduct remainder : Nat) :
    Nat → List (List QuestionRecord) → List QuestionRecord
  | _, [] => []
  | i, s :: rest =>
    s.take (questionsPerProduct + if i < remainder then 1 else 0) ++
      selectGo questionsPerProduct remainder (i + 1) rest

def selectQuestionsToTest (productQuestions : List (List QuestionRecord))
    (questionLimit : Option Nat) : List QuestionRecord :=
  match questionLimit with
  | none => productQuestions.flatten
  | some 0 => productQuestions.flatten
  | some (l + 1) =>
    selectGo (max 1 ((l + 1) / productQuestions.length))
      ((l + 1) % productQuestions.length) 0 productQuestions

/-- The branch `if (useParallel && questionsToTest.length > 3)` of
`runAutomatedTesting` (part_004): the parallel multi-browser path, else the
sequential single-session path (`navigateToSite` followed by batched
`testQuestions`). -/
def selectExecutionPath (useParallel : Bool) (questionCount : Nat) : ExecPath :=
  if useParallel = true ∧ 3 < questionCount then ExecPath.parallelPath
  else ExecPath.sequentialPath

/-- C10: with the parallel toggle enabled, parallel multi-browser execution is
used exactly when the number of selected questions is strictly greater than 3;
with 3 or fewer selected questions the run silently falls back to the
sequential path despite the flag (and with the toggle off it is always
sequential). -/
theorem claim10_parallel_gate (productQuestions : List (List QuestionRecord))
    (questionLimit : Option Nat) :
    (selectExecutionPath true
        (selectQuestionsToTest productQuestions questionLimit).length =
          ExecPath.parallelPath ↔
      3 < (selectQuestionsToTest productQuestions questionLimit).length) ∧
    ((selectQuestionsToTest productQuestions questionLimit).length ≤ 3 →
      selectExecutionPath true
        (selectQuestionsToTest productQuestions questionLimit).length =
          ExecPath.sequentialPath) ∧
    (∀ n, selectExecutionPath false n = ExecPath.sequentialPath) := by
  refine ⟨⟨?_, ?_⟩, ?_, ?_⟩
  · intro h
    by_cases hc : 3 < (selectQuestionsToTest productQuestions questionLimit).length
    · exact hc
    · unfold selectExecutionPath at h
      rw [if_neg (by tauto)] at h
      exact ExecPath.noConfusion h
  · intro h
    unfold selectExecutionPath
    rw [if_pos ⟨rfl, h⟩]
  · intro h
    unfold selectExecutionPath
    rw [if_neg (by rintro ⟨-, h4⟩; omega)]
  · intro n
    unfold selectExecutionPath
    rw [if_neg (by rintro ⟨hf, -⟩; exact Bool.noConfusion hf)]

theorem claim10_parallel_gate_witness :
    selectExecutionPath true (selectQuestionsToTest [[qRecA], [qRecB]] none).length =
      ExecPath.sequentialPath :=
  (claim10_parallel_gate [[qRecA], [qRecB]] none).2.1 (by decide)

end UAREval
